import Mathlib

/-!
# Verification of the robotic arm orchestration core

Shallow embedding of `arm_system/main.py` (class `Robot`): the scan registry,
zone lookup, movement sequencing, safety recovery and the pick-and-place
orchestration.  The transport layer (`CommunicationManager`) is an external
collaborator: its asynchronous inputs (detection events, per-step movement
confirmations, the polled safety status, the scan-complete signal) are passed
to each embedded operation as explicit arguments, and the messages the core
sends to it are collected into an explicit action trace.
-/

namespace ArmSystem

/-- A placement destination: target angle and distance. -/
structure PlacementZone where
  angle : Int
  distance : Int
deriving DecidableEq

/-- A detection event as delivered to the scan callback.  Every field is
optional, mirroring dictionary access via `data.get` in the source. -/
structure DetectionData where
  angle : Option Int := none
  distance : Option Int := none
  «class» : Option String := none
  confidence : Option ℚ := none
  image_path : Option String := none
deriving DecidableEq

/-- The `position` sub-record of a provisional scan entry. -/
structure Position where
  angle : Int
  distance : Int
deriving DecidableEq

/-- The `detection` sub-record of a provisional scan entry. -/
structure Detection where
  «class» : String
  confidence : ℚ
  image : String
deriving DecidableEq

/-- A provisional record appended by `_update_object_registry` during a scan. -/
structure ScanRecord where
  position : Position
  detection : Detection
  placement_zone : PlacementZone
deriving DecidableEq

/-- A finalized catalog entry produced by `process_scan_results`
(keys `index`, `center_angle`, `distance`, `class`, `confidence`,
`placement_zone`). -/
structure ProcessedObject where
  index : Int
  center_angle : Int
  distance : Int
  «class» : String
  confidence : ℚ
  placement_zone : PlacementZone
deriving DecidableEq

/-- `scan_results` holds plain dictionaries: before finalization they have the
provisional shape, after finalization the processed shape.  An entry is one or
the other. -/
inductive CatalogEntry where
  | record : ScanRecord → CatalogEntry
  | object : ProcessedObject → CatalogEntry
deriving DecidableEq

/-- One movement instruction dictionary; absent keys are `none`. -/
structure MovementStep where
  joint : String
  angle : Option Int := none
  distance : Option Int := none
  action : Option String := none
  speed : Option Int := none
deriving DecidableEq

/-- Payload of a `send_message` call. -/
inductive Payload where
  | empty : Payload
  | speed : Int → Payload
  | step : MovementStep → Payload
deriving DecidableEq

/-- Observable effects of the core on its collaborators: callback
(de)registration, outbound messages, per-joint status resets, log lines,
closing the transport, and process exit. -/
inductive Action where
  | register : Bool → Action
  | send : String → Payload → Action
  | resetStatus : String → Action
  | logInfo : String → Action
  | logWarn : String → Action
  | logError : String → Action
  | close : Action
  | exit : Nat → Action
deriving DecidableEq

/-- The mutable state of the `Robot` object that the claims are about:
the shared `scan_results` list and whether the `scan_service` callback is
currently registered (`register_callback` with the callback vs `None`). -/
structure RobotState where
  scan_results : List CatalogEntry
  scan_cb_registered : Bool
deriving DecidableEq

/-- Outcome of calling an operation: normal return, `exit` with a code
(`SystemExit` is not caught by any `except Exception` block in the source),
or an uncaught exception such as a `KeyError`. -/
inductive CallOutcome (α : Type) where
  | normal : α → CallOutcome α
  | exited : Nat → CallOutcome α
  | crashed : CallOutcome α
deriving DecidableEq

/-! ## Zone lookup -/

/-- The `placement_zones` dictionary set up in `Robot.__init__`. -/
def placement_zones : List (String × PlacementZone) :=
  [("apple", ⟨90, 200⟩), ("orange", ⟨180, 200⟩),
   ("bottle", ⟨45, 200⟩), ("default", ⟨270, 200⟩)]

/-- Dictionary lookup `placement_zones.get key` (no default). -/
def zonesGet (key : String) : Option PlacementZone :=
  (placement_zones.find? (fun p => p.1 == key)).map (·.2)

/-- The `.lower()` call on the class string, character by character (all the
dictionary keys are ASCII). -/
def str_lower (s : String) : String :=
  ⟨s.data.map Char.toLower⟩

/-- `_get_placement_zones`: case-insensitive lookup with the `default` entry
as fallback.  The subscript access `placement_zones` at key `default` always
succeeds, witnessed by `decide`. -/
def _get_placement_zones (object_class : String) : PlacementZone :=
  (zonesGet (str_lower object_class)).getD ((zonesGet "default").get (by decide))

/-! ## Object registry -/

/-- Python truthiness of `data.get` at key `class`: false for a missing key
and for the empty string. -/
def classTruthy (data : DetectionData) : Bool :=
  match data.«class» with
  | none => false
  | some c => !(c == "")

/-- The provisional dictionary built inside `_update_object_registry`. -/
def recordDataOf (data : DetectionData) : ScanRecord :=
  { position := { angle := data.angle.getD 0, distance := data.distance.getD 0 }
    detection := { «class» := data.«class».getD "default"
                   confidence := data.confidence.getD 0
                   image := data.image_path.getD "" }
    placement_zone := _get_placement_zones (data.«class».getD "default") }

/-- `_update_object_registry`: append the provisional record to
`scan_results`. -/
def _update_object_registry (scan_results : List CatalogEntry)
    (data : DetectionData) : List CatalogEntry :=
  scan_results ++ [CatalogEntry.record (recordDataOf data)]

/-- `_scan_callback`: record the event only when `data.get` at key `class` is
truthy, otherwise drop it silently. -/
def _scan_callback (scan_results : List CatalogEntry)
    (data : DetectionData) : List CatalogEntry :=
  if classTruthy data then _update_object_registry scan_results data
  else scan_results

/-- One iteration of the finalization loop of `process_scan_results`: a
provisional record at (1-based) position `i` becomes a processed entry; a
processed entry has no `position` key, so the subscript access raises
(`none`). -/
def finalizeEntry (i : Nat) : CatalogEntry → Option CatalogEntry
  | .record obj =>
      some (.object
        { index := (i : Int)
          center_angle := obj.position.angle
          distance := obj.position.distance
          «class» := obj.detection.«class»
          confidence := obj.detection.confidence
          placement_zone := obj.placement_zone })
  | .object _ => none

/-- The `for i, obj in enumerate(..., start=1)` loop of
`process_scan_results`, building the processed list; a raised access aborts
the whole call. -/
def finalizeEntries : Nat → List CatalogEntry → Option (List CatalogEntry)
  | _, [] => some []
  | i, e :: rest =>
      match finalizeEntry i e, finalizeEntries (i + 1) rest with
      | some o, some os => some (o :: os)
      | _, _ => none

/-- `process_scan_results`: on an empty list, return early leaving
`scan_results` unchanged; otherwise replace it with the processed list. -/
def process_scan_results (scan_results : List CatalogEntry) :
    Option (List CatalogEntry) :=
  if scan_results.isEmpty then some scan_results
  else finalizeEntries 1 scan_results

/-- Indices of the finalized entries of a catalog. -/
def catalogIndices (entries : List CatalogEntry) : List Int :=
  entries.filterMap fun e =>
    match e with
    | .object o => some o.index
    | .record _ => none

/-- Class labels of the entries of a catalog, in catalog order. -/
def catalogClasses (entries : List CatalogEntry) : List String :=
  entries.map fun e =>
    match e with
    | .record r => r.detection.«class»
    | .object o => o.«class»

/-! ## Robot construction and event delivery -/

/-- `Robot.__init__`: the catalog starts empty, and the `scan_service`
callback is registered immediately (before any scan is started). -/
def robot_init : RobotState :=
  { scan_results := [], scan_cb_registered := true }

/-- The transport delivers one detection event: the registered callback (if
any) runs `_scan_callback`; with no callback registered the event is
dropped. -/
def deliver_detection (s : RobotState) (data : DetectionData) : RobotState :=
  if s.scan_cb_registered then
    { s with scan_results := _scan_callback s.scan_results data }
  else s

/-! ## Scan command -/

/-- `handle_scan_command`.  Environment inputs: the detection events the
transport delivers during the scan window, and whether the scan-complete
signal arrived within the 60-time-unit wait.  The handler resets
`scan_results`, registers the callback, sends the scan command; the window
events are then folded through the callback.  On completion it finalizes via
`process_scan_results` and deregisters; on timeout it logs an error and
deregisters, leaving the collected provisional records in `scan_results`. -/
def handle_scan_command (_s : RobotState) (window_events : List DetectionData)
    (scan_completed : Bool) : CallOutcome RobotState × List Action :=
  let collected := window_events.foldl _scan_callback []
  let startActs : List Action :=
    [.register true, .send "scan_service" (.speed 20),
     .logInfo "scanning in progress"]
  if scan_completed then
    match process_scan_results collected with
    | some final =>
        let procActs : List Action :=
          if collected.isEmpty then
            [.logWarn "scanning completed without object detection"]
          else .logInfo "objects scanned" :: collected.map (fun _ => .logInfo "Obj")
        (.normal { scan_results := final, scan_cb_registered := false },
         startActs ++ procActs ++ [.register false])
    | none => (.crashed, startActs)
  else
    (.normal { scan_results := collected, scan_cb_registered := false },
     startActs ++ [.logError "scanning timeout", .register false])

/-! ## Interactive selection -/

/-- The listing loop of `select_object_interactively` reads the `index` key
of every entry; a provisional record has no such key, so a catalog containing
one makes the call raise.  Otherwise this extracts the processed objects. -/
def catalogObjects : List CatalogEntry → Option (List ProcessedObject)
  | [] => some []
  | .object o :: rest => (catalogObjects rest).map (o :: ·)
  | .record _ :: _ => none

/-- `select_object_interactively`.  `user_input` is `none` when `int(...)`
raises a `ValueError` (non-numeric input, caught: returns the empty dict,
modelled `none`); selection `0` cancels; otherwise the first entry with a
matching `index` is returned, or the empty dict when none matches. -/
def select_object_interactively (scan_results : List CatalogEntry)
    (user_input : Option Int) : CallOutcome (Option ProcessedObject) :=
  match catalogObjects scan_results with
  | none => .crashed
  | some objs =>
      match user_input with
      | none => .normal none
      | some selection =>
          if selection = 0 then .normal none
          else .normal (objs.find? (fun x => x.index == selection))

/-! ## Movement plans -/

/-- The pick plan built in `execute_pick_sequence`. -/
def pick_plan (target : ProcessedObject) : List MovementStep :=
  [ { joint := "base", angle := some target.center_angle, speed := some 30 },
    { joint := "arm", distance := some target.distance, action := some "pick" },
    { joint := "gripper", action := some "close" },
    { joint := "arm", distance := some target.distance, action := some "up" } ]

/-- The place plan built in `execute_place_sequence`. -/
def place_plan (target : ProcessedObject) : List MovementStep :=
  [ { joint := "base", angle := some target.placement_zone.angle, speed := some 30 },
    { joint := "arm", distance := some target.placement_zone.distance,
      action := some "place" },
    { joint := "gripper", action := some "open" },
    { joint := "arm", distance := some target.distance, action := some "up" },
    { joint := "base", angle := some 0, speed := some 60 } ]

/-! ## Safety recovery -/

inductive SafetyOutcome where
  | Recovered : SafetyOutcome
  | Fatal : SafetyOutcome
deriving DecidableEq

/-- The fixed sleep interval of the safety polling loop (0.5 time-units). -/
def poll_interval : ℚ := 1 / 2

/-- The recovery deadline of `handle_movement_failure` (15 time-units). -/
def safety_deadline : ℚ := 15

/-- The `while (time.time() - start_time) < 15` polling loop: poll `k`
happens at elapsed time `k * poll_interval`; the loop keeps polling the
shared safety status while the elapsed time is below the deadline, returning
as soon as a poll reads `completed`. -/
def safety_loop (safety_status : Nat → String) (k : Nat) : SafetyOutcome :=
  if h : (k : ℚ) * poll_interval < safety_deadline then
    if safety_status k = "completed" then .Recovered
    else safety_loop safety_status (k + 1)
  else .Fatal
termination_by 30 - k
decreasing_by
  simp only [poll_interval, safety_deadline] at h
  have hk : (k : ℚ) < 30 := by linarith
  have hk30 : k < 30 := by exact_mod_cast hk
  omega

/-- `handle_movement_failure`: send the safety command, poll the shared
safety status (never resetting it first); on success log and return, on
deadline expiry log, close the transport and `exit(1)`. -/
def handle_movement_failure (safety_status : Nat → String) :
    SafetyOutcome × List Action :=
  let startActs : List Action :=
    [.logError "executing security protocol", .send "safety_service" .empty]
  match safety_loop safety_status 0 with
  | .Recovered => (.Recovered, startActs ++ [.logInfo "system safety"])
  | .Fatal =>
      (.Fatal, startActs ++ [.logError "error in safety service", .close, .exit 1])

/-! ## Movement execution -/

inductive MovementResult where
  | success : MovementResult
  | failure : String → SafetyOutcome → MovementResult
deriving DecidableEq

/-- The `for move in movement_sequence` loop of `execute_movement`: per step,
reset the joint status to pending, send the command, and block on
`wait_for_confirmation`.  `confirm k` is the environment outcome of the wait
for the step at position `k` (false covers both a `failed` status and a
timeout).  Returns the action trace and the failing joint, if any. -/
def execute_movement_loop (message_type : String) (confirm : Nat → Bool) :
    List MovementStep → Nat → List Action × Option String
  | [], _ => ([], none)
  | move :: rest, k =>
      let stepActs : List Action :=
        [.logInfo "movement", .resetStatus move.joint,
         .send message_type (.step move)]
      if confirm k then
        let next := execute_movement_loop message_type confirm rest (k + 1)
        (stepActs ++ .logInfo "movement completed" :: next.1, next.2)
      else
        (stepActs ++ [.logError "error in movement"], some move.joint)

/-- `execute_movement`: on a step failure the `except` block logs, runs
`handle_movement_failure`, and re-raises (unless the safety path already
exited the process). -/
def execute_movement (message_type : String)
    (movement_sequence : List MovementStep) (confirm : Nat → Bool)
    (safety_status : Nat → String) : List Action × MovementResult :=
  match execute_movement_loop message_type confirm movement_sequence 0 with
  | (acts, none) => (acts, .success)
  | (acts, some joint) =>
      let safety := handle_movement_failure safety_status
      (acts ++ safety.2, .failure joint safety.1)

/-- Plan steps sent under a given service tag, extracted from a trace. -/
def sentSteps (message_type : String) (acts : List Action) : List MovementStep :=
  acts.filterMap fun a =>
    match a with
    | .send t (.step m) => if t == message_type then some m else none
    | _ => none

/-! ## Pick and place -/

/-- `execute_pick_sequence`: runs the pick plan; the `except Exception`
block absorbs the re-raised movement failure (returning `False`), but a
`SystemExit` from the fatal safety path is not an `Exception` and
propagates. -/
def execute_pick_sequence (target : ProcessedObject) (confirm : Nat → Bool)
    (safety_status : Nat → String) : List Action × CallOutcome Bool :=
  match execute_movement "pick_service" (pick_plan target) confirm safety_status with
  | (acts, .success) => (acts, .normal true)
  | (acts, .failure _ .Recovered) =>
      (acts ++ [.logError "Error in pick sequence"], .normal false)
  | (acts, .failure _ .Fatal) => (acts, .exited 1)

/-- `execute_place_sequence`: same shape as the pick sequence, over the place
plan. -/
def execute_place_sequence (target : ProcessedObject) (confirm : Nat → Bool)
    (safety_status : Nat → String) : List Action × CallOutcome Bool :=
  match execute_movement "place_service" (place_plan target) confirm safety_status with
  | (acts, .success) => (acts, .normal true)
  | (acts, .failure _ .Recovered) =>
      (acts ++ [.logError "Error in place sequence"], .normal false)
  | (acts, .failure _ .Fatal) => (acts, .exited 1)

/-- The tail of `handle_pick_place_command` after a successful selection:
log the chosen object, run the pick sequence, and only on pick success run
the place sequence.  Neither sequence writes `scan_results` or the callback
registration, so the robot state is returned unchanged. -/
def pick_place_run (s : RobotState) (obj : ProcessedObject)
    (pick_confirm place_confirm : Nat → Bool) (safety_status : Nat → String) :
    RobotState × List Action × CallOutcome Unit :=
  match execute_pick_sequence obj pick_confirm safety_status with
  | (pickActs, .normal true) =>
      match execute_place_sequence obj place_confirm safety_status with
      | (placeActs, .normal _) =>
          (s, .logInfo "init pick and place" :: pickActs ++ placeActs, .normal ())
      | (placeActs, .exited c) =>
          (s, .logInfo "init pick and place" :: pickActs ++ placeActs, .exited c)
      | (placeActs, .crashed) =>
          (s, .logInfo "init pick and place" :: pickActs ++ placeActs, .crashed)
  | (pickActs, .normal false) =>
      (s, .logInfo "init pick and place" :: pickActs, .normal ())
  | (pickActs, .exited c) =>
      (s, .logInfo "init pick and place" :: pickActs, .exited c)
  | (pickActs, .crashed) =>
      (s, .logInfo "init pick and place" :: pickActs, .crashed)

/-- `handle_pick_place_command`: warn and return on an empty catalog; select
interactively; an empty selection returns; otherwise run the pick-then-place
tail. -/
def handle_pick_place_command (s : RobotState) (user_input : Option Int)
    (pick_confirm place_confirm : Nat → Bool) (safety_status : Nat → String) :
    RobotState × List Action × CallOutcome Unit :=
  if s.scan_results.isEmpty then
    (s, [.logWarn "first scanning the enviroment"], .normal ())
  else
    match select_object_interactively s.scan_results user_input with
    | .crashed => (s, [], .crashed)
    | .exited c => (s, [], .exited c)
    | .normal none => (s, [], .normal ())
    | .normal (some obj) =>
        pick_place_run s obj pick_confirm place_confirm safety_status

/-! ## Concrete sample inputs used by witnesses and counterexamples -/

/-- A detection event carrying the class `apple`. -/
def appleEvent : DetectionData :=
  { angle := some 10, distance := some 100, «class» := some "apple" }

/-- A finalized catalog entry for the apple detection. -/
def sampleObject : ProcessedObject :=
  { index := 1, center_angle := 10, distance := 100, «class» := "apple",
    confidence := 0, placement_zone := ⟨90, 200⟩ }

/-! # Theorems -/

/-- C7: the zone lookup is total (it is a total function on strings) and
pure; it depends only on the lowercased class string, so it is
case-insensitive, with `Apple` and `apple` mapping to the same zone; any
string whose lowercasing is not a key of the zone dictionary, in particular
the empty string, resolves to the default zone with angle 270 and
distance 200. -/
theorem claim_C7_zone_lookup :
    (∀ s t : String, str_lower s = str_lower t →
        _get_placement_zones s = _get_placement_zones t)
  ∧ _get_placement_zones "Apple" = _get_placement_zones "apple"
  ∧ (∀ s : String, zonesGet (str_lower s) = none →
        _get_placement_zones s = { angle := 270, distance := 200 })
  ∧ _get_placement_zones "" = { angle := 270, distance := 200 } := by
  refine ⟨?_, by decide, ?_, by decide⟩
  · intro s t h
    unfold _get_placement_zones
    rw [h]
  · intro s h
    unfold _get_placement_zones
    rw [h]
    decide

/-- Witness for C7 at concrete inputs: `APPLE` and `apple` share a zone, and
the unmapped class `banana` resolves to the default zone. -/
theorem claim_C7_zone_lookup_witness :
    _get_placement_zones "APPLE" = _get_placement_zones "apple"
  ∧ _get_placement_zones "banana" = { angle := 270, distance := 200 } :=
  ⟨claim_C7_zone_lookup.1 "APPLE" "apple" (by decide),
   claim_C7_zone_lookup.2.2.1 "banana" (by decide)⟩

/-- C3 counterexample: one `apple` detection arrives during the scan window
and then the 60-time-unit wait times out; afterwards the catalog still holds
the provisional record, so it was not reset to empty. -/
theorem claim_C3_counterexample :
    (handle_scan_command robot_init [appleEvent] false).1 =
      .normal
        { scan_results := [.record { position := ⟨10, 100⟩,
                                     detection := ⟨"apple", 0, ""⟩,
                                     placement_zone := ⟨90, 200⟩ }],
          scan_cb_registered := false }
  ∧ [CatalogEntry.record { position := ⟨10, 100⟩, detection := ⟨"apple", 0, ""⟩,
                           placement_zone := ⟨90, 200⟩ }]
      ≠ ([] : List CatalogEntry) := by
  constructor <;> decide

/-- C3 amended: on the timeout path the scan handler logs an error,
deregisters the detection callback and returns normally; the catalog is left
holding the raw provisional records collected during the window — it is not
finalized, and it is not reset to empty (the reset happens at the start of
the next scan). -/
theorem claim_C3_scan_timeout (s : RobotState) (events : List DetectionData) :
    handle_scan_command s events false =
      (.normal { scan_results := events.foldl _scan_callback [],
                 scan_cb_registered := false },
       [.register true, .send "scan_service" (.speed 20),
        .logInfo "scanning in progress", .logError "scanning timeout",
        .register false]) := rfl

/-- C6 counterexample: right after construction — before any scan has ever
been started — a delivered detection event is appended to the catalog,
because `Robot.__init__` already registers the scan callback. -/
theorem claim_C6_counterexample :
    robot_init.scan_results = []
  ∧ (deliver_detection robot_init appleEvent).scan_results ≠ [] := by
  constructor <;> decide

/-- C6 amended: the constructor registers the detection callback, so events
delivered between construction and the first scan are recorded; once a scan
command completes (normally or by timeout) the callback is deregistered, and
an event delivered while no callback is registered is never appended to the
catalog. -/
theorem claim_C6_subscription (s : RobotState) (d : DetectionData)
    (events : List DetectionData) (c : Bool) :
    robot_init.scan_cb_registered = true
  ∧ (s.scan_cb_registered = false → deliver_detection s d = s)
  ∧ (∀ st acts, handle_scan_command s events c = (.normal st, acts) →
      st.scan_cb_registered = false) := by
  refine ⟨rfl, ?_, ?_⟩
  · intro h
    unfold deliver_detection
    rw [h]
    simp
  · intro st acts h
    unfold handle_scan_command at h
    cases c with
    | false =>
        simp only [Bool.false_eq_true, if_false, Prod.mk.injEq] at h
        obtain ⟨h1, -⟩ := h
        cases h1
        rfl
    | true =>
        simp only [if_true] at h
        rcases hp : process_scan_results (events.foldl _scan_callback []) with _ | final
        · rw [hp] at h
          simp at h
        · rw [hp] at h
          simp only [Prod.mk.injEq] at h
          obtain ⟨h1, -⟩ := h
          cases h1
          rfl

/-- Witness for C6 (amended): with the callback deregistered, a delivered
event leaves the state unchanged. -/
theorem claim_C6_subscription_witness :
    deliver_detection { scan_results := [], scan_cb_registered := false } appleEvent
      = { scan_results := [], scan_cb_registered := false } :=
  (claim_C6_subscription { scan_results := [], scan_cb_registered := false }
    appleEvent [] false).2.1 rfl

/-- Folding the scan callback over a sequence of events appends exactly the
records of the events whose class field is truthy, in arrival order. -/
lemma scan_foldl (events : List DetectionData) :
    ∀ acc : List CatalogEntry,
      events.foldl _scan_callback acc =
        acc ++ (events.filter classTruthy).map
          (fun d => CatalogEntry.record (recordDataOf d)) := by
  induction events with
  | nil => intro acc; simp
  | cons d rest ih =>
      intro acc
      by_cases h : classTruthy d = true
      · simp [List.foldl_cons, List.filter_cons, h, _scan_callback,
              _update_object_registry, ih, List.append_assoc]
      · simp only [Bool.not_eq_true] at h
        simp [List.foldl_cons, List.filter_cons, h, _scan_callback, ih]

/-- The finalization loop on a list of provisional records succeeds and
produces one processed entry per record, with consecutive indices starting at
the loop start index and the class labels kept in order. -/
lemma finalize_records (rl : List ScanRecord) :
    ∀ n : Nat, ∃ final : List CatalogEntry,
      finalizeEntries n (rl.map CatalogEntry.record) = some final
    ∧ final.length = rl.length
    ∧ catalogIndices final =
        (List.range rl.length).map (fun i : Nat => (n : Int) + (i : Int))
    ∧ catalogClasses final = rl.map (fun r => r.detection.«class») := by
  induction rl with
  | nil =>
      intro n
      exact ⟨[], rfl, rfl, by simp [catalogIndices], by simp [catalogClasses]⟩
  | cons r rest ih =>
      intro n
      obtain ⟨final, hf, hlen, hidx, hcls⟩ := ih (n + 1)
      refine ⟨.object { index := (n : Int), center_angle := r.position.angle,
                        distance := r.position.distance,
                        «class» := r.detection.«class»,
                        confidence := r.detection.confidence,
                        placement_zone := r.placement_zone } :: final,
              ?_, ?_, ?_, ?_⟩
      · simp [finalizeEntries, finalizeEntry, hf]
      · simp [hlen]
      · simp only [catalogIndices, List.filterMap_cons] at hidx ⊢
        rw [hidx, List.length_cons, List.range_succ_eq_map]
        simp only [List.map_cons, List.map_map, Nat.cast_zero, add_zero]
        congr 1
        apply List.map_congr_left
        intro i _
        simp [Function.comp, Nat.succ_eq_add_one]
        ring
      · simp only [catalogClasses, List.map_cons] at hcls ⊢
        rw [hcls]

/-- C2: for every sequence of detection events delivered during one scan
window, events without a truthy class field are silently discarded (the
collected list holds exactly the records of truthy-class events, in arrival
order), and finalization succeeds, yielding a catalog whose size is the
number of truthy-class events, with indices exactly 1..n in arrival order
and the class labels in arrival order; the scan handler installs exactly this
catalog on the completion path. -/
theorem claim_C2_scan_finalization (events : List DetectionData) :
    ∃ final : List CatalogEntry,
      events.foldl _scan_callback [] =
        (events.filter classTruthy).map
          (fun d => CatalogEntry.record (recordDataOf d))
    ∧ process_scan_results (events.foldl _scan_callback []) = some final
    ∧ final.length = (events.filter classTruthy).length
    ∧ catalogIndices final =
        (List.range (events.filter classTruthy).length).map
          (fun i : Nat => (i : Int) + 1)
    ∧ catalogClasses final =
        (events.filter classTruthy).map (fun d => d.«class».getD "default")
    ∧ ∀ s : RobotState, (handle_scan_command s events true).1 =
        .normal { scan_results := final, scan_cb_registered := false } := by
  have hfold : events.foldl _scan_callback [] =
      (events.filter classTruthy).map
        (fun d => CatalogEntry.record (recordDataOf d)) := by
    simpa using scan_foldl events []
  obtain ⟨final, hf, hlen, hidx, hcls⟩ :=
    finalize_records ((events.filter classTruthy).map recordDataOf) 1
  rw [List.map_map] at hf
  have hmapeq : (CatalogEntry.record ∘ recordDataOf) =
      (fun d => CatalogEntry.record (recordDataOf d)) := rfl
  rw [hmapeq] at hf
  have hproc : process_scan_results (events.foldl _scan_callback []) = some final := by
    unfold process_scan_results
    rw [hfold]
    by_cases hemp : events.filter classTruthy = []
    · have hfinal : final = [] := by
        rw [hemp] at hf
        simpa [finalizeEntries] using hf.symm
      rw [hemp, hfinal]
      simp
    · have : ((events.filter classTruthy).map
          (fun d => CatalogEntry.record (recordDataOf d))).isEmpty = false := by
        simp [List.isEmpty_iff, hemp]
      rw [this]
      simp only [Bool.false_eq_true, if_false]
      rw [← hf]
  refine ⟨final, hfold, hproc, ?_, ?_, ?_, ?_⟩
  · simpa using hlen
  · rw [hidx]
    simp only [List.length_map]
    apply List.map_congr_left
    intro i _
    ring
  · rw [hcls, List.map_map]
    apply List.map_congr_left
    intro d _
    simp [recordDataOf]
  · intro s
    unfold handle_scan_command
    simp only [if_true]
    rw [hproc]

/-- The polling-loop guard at poll `k` holds exactly when `k < 30`
(polls happen every half time-unit, the deadline is 15 time-units). -/
lemma safety_guard_iff (k : Nat) :
    ((k : ℚ) * poll_interval < safety_deadline) ↔ k < 30 := by
  rw [poll_interval, safety_deadline]
  constructor
  · intro h
    have hk : (k : ℚ) < 30 := by linarith
    exact_mod_cast hk
  · intro h
    have hk : (k : ℚ) < 30 := by exact_mod_cast h
    linarith

/-- One-step unfolding of the safety polling loop. -/
lemma safety_loop_eq (st : Nat → String) (k : Nat) :
    safety_loop st k =
      if (k : ℚ) * poll_interval < safety_deadline then
        if st k = "completed" then .Recovered else safety_loop st (k + 1)
      else .Fatal := by
  rw [safety_loop]
  split <;> rfl

/-- The polling loop started at poll `k` recovers exactly when some poll at
or after `k`, at a time strictly below the deadline, reads a completed
status. -/
lemma safety_loop_recovered_iff (st : Nat → String) :
    ∀ m k : Nat, 30 ≤ k + m →
      (safety_loop st k = .Recovered ↔
        ∃ j : Nat, k ≤ j ∧ (j : ℚ) * poll_interval < safety_deadline ∧
          st j = "completed") := by
  intro m
  induction m with
  | zero =>
      intro k hk
      rw [safety_loop_eq]
      have hg : ¬((k : ℚ) * poll_interval < safety_deadline) := by
        rw [safety_guard_iff]; omega
      rw [if_neg hg]
      constructor
      · intro h; exact absurd h (by simp)
      · rintro ⟨j, hkj, hj, -⟩
        rw [safety_guard_iff] at hj
        omega
  | succ m ih =>
      intro k hk
      by_cases hg : (k : ℚ) * poll_interval < safety_deadline
      · rw [safety_loop_eq, if_pos hg]
        by_cases hc : st k = "completed"
        · rw [if_pos hc]
          exact ⟨fun _ => ⟨k, le_refl k, hg, hc⟩, fun _ => rfl⟩
        · rw [if_neg hc, ih (k + 1) (by omega)]
          constructor
          · rintro ⟨j, hkj, hj, hjc⟩
            exact ⟨j, by omega, hj, hjc⟩
          · rintro ⟨j, hkj, hj, hjc⟩
            refine ⟨j, ?_, hj, hjc⟩
            rcases Nat.eq_or_lt_of_le hkj with rfl | hlt
            · exact absurd hjc hc
            · omega
      · rw [safety_loop_eq, if_neg hg]
        rw [safety_guard_iff] at hg
        constructor
        · intro h; exact absurd h (by simp)
        · rintro ⟨j, hkj, hj, -⟩
          rw [safety_guard_iff] at hj
          omega

/-- C1: the safety recovery operation returns `Recovered` exactly when some
poll at a time strictly below the 15-time-unit deadline observes a
`completed` safety status; the safety command is sent exactly once (no
retry of the safety protocol); the outcome is either `Recovered` or `Fatal`;
on the `Fatal` path the transport is closed exactly once and the process
exits with code 1, and on the `Recovered` path the transport is never
closed. -/
theorem claim_C1_safety_recovery (st : Nat → String) :
    ((handle_movement_failure st).1 = .Recovered ↔
       ∃ k : Nat, (k : ℚ) * poll_interval < safety_deadline ∧ st k = "completed")
  ∧ (handle_movement_failure st).2.count (.send "safety_service" .empty) = 1
  ∧ ((handle_movement_failure st).1 = .Recovered ∨
       (handle_movement_failure st).1 = .Fatal)
  ∧ ((handle_movement_failure st).1 = .Fatal →
       (handle_movement_failure st).2.count .close = 1
     ∧ Action.exit 1 ∈ (handle_movement_failure st).2)
  ∧ ((handle_movement_failure st).1 = .Recovered →
       (handle_movement_failure st).2.count .close = 0) := by
  have hloop := safety_loop_recovered_iff st 30 0 (by omega)
  rcases h : safety_loop st 0 with _ | _
  · have hex : ∃ j : Nat, (j : ℚ) * poll_interval < safety_deadline ∧
        st j = "completed" := by
      obtain ⟨j, -, hj, hjc⟩ := hloop.mp h
      exact ⟨j, hj, hjc⟩
    have heq : handle_movement_failure st =
        (.Recovered, [.logError "executing security protocol",
                      .send "safety_service" .empty, .logInfo "system safety"]) := by
      unfold handle_movement_failure
      rw [h]
      rfl
    rw [heq]
    exact ⟨⟨fun _ => hex, fun _ => rfl⟩, by decide, Or.inl rfl,
           fun hf => absurd hf (by simp), fun _ => by decide⟩
  · have hne : ¬∃ k : Nat, (k : ℚ) * poll_interval < safety_deadline ∧
        st k = "completed" := by
      rintro ⟨k, hk, hc⟩
      have hr : safety_loop st 0 = .Recovered :=
        hloop.mpr ⟨k, Nat.zero_le k, hk, hc⟩
      rw [h] at hr
      exact absurd hr (by simp)
    have heq : handle_movement_failure st =
        (.Fatal, [.logError "executing security protocol",
                  .send "safety_service" .empty,
                  .logError "error in safety service", .close, .exit 1]) := by
      unfold handle_movement_failure
      rw [h]
      rfl
    rw [heq]
    exact ⟨⟨fun hr => absurd hr (by simp), fun hex => absurd hex hne⟩,
           by decide, Or.inr rfl, fun _ => ⟨by decide, by decide⟩,
           fun hr => absurd hr (by simp)⟩

/-- Witness for C1: with a safety status that never reads `completed`, the
fatal path is taken, the transport is closed exactly once and the process
exits with code 1. -/
theorem claim_C1_safety_recovery_witness :
    (handle_movement_failure (fun _ => "idle")).2.count Action.close = 1
  ∧ Action.exit 1 ∈ (handle_movement_failure (fun _ => "idle")).2 := by
  have h := claim_C1_safety_recovery (fun _ => "idle")
  have hfatal : (handle_movement_failure (fun _ => "idle")).1 = .Fatal := by
    rcases h.2.2.1 with hr | hf
    · exfalso
      obtain ⟨k, -, hc⟩ := h.1.mp hr
      exact absurd hc (by decide)
    · exact hf
  exact h.2.2.2.1 hfatal

/-- C10: `handle_movement_failure` never resets the shared safety status
before polling; if the status already reads `completed` when it is invoked —
for any later behaviour of the status whatsoever, including one that never
freshly completes — the very first poll succeeds and the call returns
`Recovered` after sending the safety command once, with no close and no
exit. -/
theorem claim_C10_stale_completed (st : Nat → String) (h : st 0 = "completed") :
    handle_movement_failure st =
      (.Recovered, [.logError "executing security protocol",
                    .send "safety_service" .empty, .logInfo "system safety"]) := by
  have hguard : ((0 : Nat) : ℚ) * poll_interval < safety_deadline := by
    rw [safety_guard_iff]
    omega
  have hloop : safety_loop st 0 = .Recovered := by
    rw [safety_loop_eq, if_pos hguard, if_pos h]
  unfold handle_movement_failure
  rw [hloop]
  rfl

/-- Witness for C10: a stale `completed` status left at poll 0, with the
status reading `failed` ever after, still yields immediate recovery. -/
theorem claim_C10_stale_completed_witness :
    handle_movement_failure (fun k => if k = 0 then "completed" else "failed") =
      (.Recovered, [.logError "executing security protocol",
                    .send "safety_service" .empty, .logInfo "system safety"]) :=
  claim_C10_stale_completed (fun k => if k = 0 then "completed" else "failed") rfl

/-- Extraction of sent plan steps distributes over trace concatenation. -/
lemma sentSteps_append (tag : String) (a b : List Action) :
    sentSteps tag (a ++ b) = sentSteps tag a ++ sentSteps tag b := by
  simp [sentSteps, List.filterMap_append]

/-- The safety recovery trace contains no plan-step command, under any
service tag. -/
lemma sentSteps_handle_movement_failure (tag : String) (st : Nat → String) :
    sentSteps tag (handle_movement_failure st).2 = [] := by
  unfold handle_movement_failure
  rcases safety_loop st 0 <;> simp [sentSteps, List.filterMap]

/-- If the step at position `k` (0-based) is the first whose confirmation
fails, the movement loop sends exactly the first `k + 1` plan steps under its
service tag and reports the joint of the failing step. -/
lemma execute_movement_loop_first_fail (tag : String) (confirm : Nat → Bool) :
    ∀ (plan : List MovementStep) (k k0 : Nat) (hk : k < plan.length),
      (∀ i, i < k → confirm (k0 + i) = true) → confirm (k0 + k) = false →
      sentSteps tag (execute_movement_loop tag confirm plan k0).1 = plan.take (k + 1)
    ∧ (execute_movement_loop tag confirm plan k0).2 = some (plan[k].joint) := by
  intro plan
  induction plan with
  | nil =>
      intro k k0 hk
      exact absurd hk (by simp)
  | cons m rest ih =>
      intro k k0 hk hpre hfail
      cases k with
      | zero =>
          have hc : confirm k0 = false := by simpa using hfail
          constructor
          · simp [execute_movement_loop, hc, sentSteps, List.filterMap]
          · simp [execute_movement_loop, hc]
      | succ k' =>
          have hc : confirm k0 = true := by simpa using hpre 0 (Nat.succ_pos k')
          have hk' : k' < rest.length := by simpa using hk
          have hpre' : ∀ i, i < k' → confirm (k0 + 1 + i) = true := by
            intro i hi
            rw [show k0 + 1 + i = k0 + (i + 1) by omega]
            exact hpre (i + 1) (by omega)
          have hfail' : confirm (k0 + 1 + k') = false := by
            rw [show k0 + 1 + k' = k0 + (k' + 1) by omega]
            exact hfail
          obtain ⟨ih1, ih2⟩ := ih k' (k0 + 1) hk' hpre' hfail'
          constructor
          · simp only [sentSteps] at ih1 ⊢
            simp only [beq_iff_eq] at ih1
            simp [execute_movement_loop, hc, List.filterMap_append,
                  List.filterMap_cons, ih1]
          · simp [execute_movement_loop, hc, ih2]

/-- C4: in any plan whose step at (1-based) position `k + 1` is the first to
fail — confirmation of every earlier step succeeds and step `k + 1` fails or
times out — `execute_movement` sends under its service tag exactly the first
`k + 1` plan-step commands (steps beyond the failing one are never sent) and
surfaces a movement failure carrying the joint of the failing step. -/
theorem claim_C4_first_failure (tag : String) (plan : List MovementStep)
    (confirm : Nat → Bool) (safety_status : Nat → String) (k : Nat)
    (hk : k < plan.length) (hpre : ∀ i, i < k → confirm i = true)
    (hfail : confirm k = false) :
    sentSteps tag (execute_movement tag plan confirm safety_status).1 =
      plan.take (k + 1)
  ∧ ∃ o : SafetyOutcome,
      (execute_movement tag plan confirm safety_status).2 =
        .failure (plan[k].joint) o := by
  obtain ⟨h1, h2⟩ := execute_movement_loop_first_fail tag confirm plan k 0 hk
    (by simpa using hpre) (by simpa using hfail)
  unfold execute_movement
  rcases hl : execute_movement_loop tag confirm plan 0 with ⟨acts, r⟩
  rw [hl] at h1 h2
  simp only at h1 h2
  subst h2
  constructor
  · rw [sentSteps_append, h1, sentSteps_handle_movement_failure]
    simp
  · exact ⟨(handle_movement_failure safety_status).1, rfl⟩

/-- Witness for C4: the 4-step pick plan for the sample object with the
gripper-close step (position 3, 1-based) failing first: exactly 3 commands
are sent and the failure names the gripper joint. -/
theorem claim_C4_first_failure_witness :
    sentSteps "pick_service"
        (execute_movement "pick_service" (pick_plan sampleObject)
          (fun i => decide (i < 2)) (fun _ => "idle")).1
      = (pick_plan sampleObject).take 3
  ∧ ∃ o : SafetyOutcome,
      (execute_movement "pick_service" (pick_plan sampleObject)
          (fun i => decide (i < 2)) (fun _ => "idle")).2
        = .failure ((pick_plan sampleObject)[2].joint) o :=
  claim_C4_first_failure "pick_service" (pick_plan sampleObject)
    (fun i => decide (i < 2)) (fun _ => "idle") 2 (by decide)
    (fun i hi => decide_eq_true hi) (by decide)

/-- The movement loop of one service never sends a plan step under a
different service tag. -/
lemma sentSteps_loop_other (tag tagPrime : String) (h : ¬tagPrime = tag)
    (confirm : Nat → Bool) :
    ∀ (plan : List MovementStep) (k0 : Nat),
      sentSteps tag (execute_movement_loop tagPrime confirm plan k0).1 = [] := by
  intro plan
  induction plan with
  | nil => intro k0; simp [execute_movement_loop, sentSteps]
  | cons m rest ih =>
      intro k0
      have ih' := ih (k0 + 1)
      simp only [sentSteps] at ih' ⊢
      simp only [beq_iff_eq] at ih'
      by_cases hc : confirm k0 = true
      · simp [execute_movement_loop, hc, List.filterMap_append,
              List.filterMap_cons, h, ih']
      · simp only [Bool.not_eq_true] at hc
        simp [execute_movement_loop, hc, List.filterMap_append,
              List.filterMap_cons, h]

/-- A pick sequence whose plan has a first failing step, under a safety
status that completes within the deadline, absorbs the movement failure and
returns `False`; its trace contains no place-plan command. -/
lemma execute_pick_sequence_fail_recovered (obj : ProcessedObject)
    (pc : Nat → Bool) (st : Nat → String)
    (hfail : ∃ k, k < (pick_plan obj).length ∧
        (∀ i, i < k → pc i = true) ∧ pc k = false)
    (hsafe : ∃ t : Nat, (t : ℚ) * poll_interval < safety_deadline ∧
        st t = "completed") :
    ∃ acts, execute_pick_sequence obj pc st = (acts, .normal false)
      ∧ sentSteps "place_service" acts = [] := by
  obtain ⟨k, hk, hpre, hfl⟩ := hfail
  obtain ⟨-, h2⟩ := execute_movement_loop_first_fail "pick_service" pc
    (pick_plan obj) k 0 hk (by simpa using hpre) (by simpa using hfl)
  have hrec : safety_loop st 0 = .Recovered := by
    rw [safety_loop_recovered_iff st 30 0 (by omega)]
    obtain ⟨t, ht, hc⟩ := hsafe
    exact ⟨t, Nat.zero_le t, ht, hc⟩
  have hmf : handle_movement_failure st =
      (.Recovered, [.logError "executing security protocol",
                    .send "safety_service" .empty, .logInfo "system safety"]) := by
    unfold handle_movement_failure
    rw [hrec]
    rfl
  have hother : sentSteps "place_service"
      (execute_movement_loop "pick_service" pc (pick_plan obj) 0).1 = [] :=
    sentSteps_loop_other "place_service" "pick_service" (by decide) pc
      (pick_plan obj) 0
  unfold execute_pick_sequence execute_movement
  rcases hl : execute_movement_loop "pick_service" pc (pick_plan obj) 0
    with ⟨acts, r⟩
  rw [hl] at h2 hother
  simp only at h2 hother
  subst h2
  rw [hmf]
  refine ⟨_, rfl, ?_⟩
  rw [sentSteps_append, sentSteps_append, hother]
  simp [sentSteps, List.filterMap]

/-- C5: whenever the catalog is non-empty, a valid object is selected, some
pick-plan step fails (first failure at any position), and the safety status
reaches `completed` strictly before the 15-time-unit deadline, the
pick-and-place handler returns normally to the idle loop with the robot
state — in particular the finalized catalog — unchanged, and its trace
contains zero place-plan commands: the attempt is abandoned. -/
theorem claim_C5_recovered_abandons_pick (s : RobotState)
    (user_input : Option Int) (obj : ProcessedObject)
    (pick_confirm place_confirm : Nat → Bool) (safety_status : Nat → String)
    (hne : s.scan_results ≠ [])
    (hsel : select_object_interactively s.scan_results user_input =
        .normal (some obj))
    (hfail : ∃ k, k < (pick_plan obj).length ∧
        (∀ i, i < k → pick_confirm i = true) ∧ pick_confirm k = false)
    (hsafe : ∃ t : Nat, (t : ℚ) * poll_interval < safety_deadline ∧
        safety_status t = "completed") :
    (handle_pick_place_command s user_input pick_confirm place_confirm
        safety_status).1 = s
  ∧ (handle_pick_place_command s user_input pick_confirm place_confirm
        safety_status).2.2 = .normal ()
  ∧ sentSteps "place_service"
      (handle_pick_place_command s user_input pick_confirm place_confirm
        safety_status).2.1 = [] := by
  obtain ⟨acts, hps, hacts⟩ :=
    execute_pick_sequence_fail_recovered obj pick_confirm safety_status hfail hsafe
  have hempty : s.scan_results.isEmpty = false := by
    cases h : s.scan_results
    · exact absurd h hne
    · rfl
  have hrun : pick_place_run s obj pick_confirm place_confirm safety_status
      = (s, .logInfo "init pick and place" :: acts, .normal ()) := by
    unfold pick_place_run
    rw [hps]
  unfold handle_pick_place_command
  simp only [hempty, Bool.false_eq_true, if_false]
  rw [hsel]
  refine ⟨?_, ?_, ?_⟩
  · show (pick_place_run s obj pick_confirm place_confirm safety_status).1 = s
    rw [hrun]
  · show (pick_place_run s obj pick_confirm place_confirm safety_status).2.2
      = .normal ()
    rw [hrun]
  · show sentSteps "place_service"
      (pick_place_run s obj pick_confirm place_confirm safety_status).2.1 = []
    rw [hrun]
    have hcons : sentSteps "place_service"
        (.logInfo "init pick and place" :: acts)
        = sentSteps "place_service" acts := by
      simp [sentSteps, List.filterMap_cons]
    rw [hcons, hacts]

/-- Witness for C5: one-object catalog, selection 1, first pick step fails,
safety completes at the very first poll: state unchanged, normal return, no
place commands. -/
theorem claim_C5_recovered_abandons_pick_witness :
    (handle_pick_place_command ⟨[.object sampleObject], false⟩ (some 1)
        (fun _ => false) (fun _ => true) (fun _ => "completed")).1
      = ⟨[.object sampleObject], false⟩
  ∧ (handle_pick_place_command ⟨[.object sampleObject], false⟩ (some 1)
        (fun _ => false) (fun _ => true) (fun _ => "completed")).2.2
      = .normal ()
  ∧ sentSteps "place_service"
      (handle_pick_place_command ⟨[.object sampleObject], false⟩ (some 1)
        (fun _ => false) (fun _ => true) (fun _ => "completed")).2.1 = [] :=
  claim_C5_recovered_abandons_pick ⟨[.object sampleObject], false⟩ (some 1)
    sampleObject (fun _ => false) (fun _ => true) (fun _ => "completed")
    (by decide) (by decide)
    ⟨0, by decide, fun i hi => absurd hi (Nat.not_lt_zero i), rfl⟩
    ⟨0, by rw [safety_guard_iff]; omega, rfl⟩

/-- C8: with an empty catalog, the pick-and-place handler only reports that
a scan must run first and returns to the idle loop with no command sent; and
with a non-empty, finalized catalog, a cancelling selection (0) or
non-numeric input makes it return to the idle loop having sent nothing. -/
theorem claim_C8_empty_and_cancel (s : RobotState) (user_input : Option Int)
    (pick_confirm place_confirm : Nat → Bool) (safety_status : Nat → String) :
    (s.scan_results = [] →
       handle_pick_place_command s user_input pick_confirm place_confirm
           safety_status
         = (s, [.logWarn "first scanning the enviroment"], .normal ()))
  ∧ (∀ objs, catalogObjects s.scan_results = some objs → s.scan_results ≠ [] →
       user_input = none ∨ user_input = some 0 →
       handle_pick_place_command s user_input pick_confirm place_confirm
           safety_status
         = (s, [], .normal ())) := by
  constructor
  · intro h
    unfold handle_pick_place_command
    rw [h]
    rfl
  · intro objs hobjs hne hinp
    have hempty : s.scan_results.isEmpty = false := by
      cases h : s.scan_results
      · exact absurd h hne
      · rfl
    unfold handle_pick_place_command
    simp only [hempty, Bool.false_eq_true, if_false]
    unfold select_object_interactively
    rw [hobjs]
    rcases hinp with rfl | rfl
    · rfl
    · rfl

/-- Witness for C8: an empty catalog reports scan-first; a one-object
catalog with non-numeric input returns idle with an empty trace. -/
theorem claim_C8_empty_and_cancel_witness :
    handle_pick_place_command ⟨[], true⟩ (some 1) (fun _ => true)
        (fun _ => true) (fun _ => "idle")
      = (⟨[], true⟩, [.logWarn "first scanning the enviroment"], .normal ())
  ∧ handle_pick_place_command ⟨[.object sampleObject], false⟩ none
        (fun _ => true) (fun _ => true) (fun _ => "idle")
      = (⟨[.object sampleObject], false⟩, [], .normal ()) :=
  ⟨(claim_C8_empty_and_cancel ⟨[], true⟩ (some 1) (fun _ => true)
      (fun _ => true) (fun _ => "idle")).1 rfl,
   (claim_C8_empty_and_cancel ⟨[.object sampleObject], false⟩ none
      (fun _ => true) (fun _ => true) (fun _ => "idle")).2
     [sampleObject] rfl (by decide) (Or.inl rfl)⟩

/-- C9: a numeric selection matching no catalog index (out of range or
negative) yields an empty selection, and the handler returns to the idle
loop with an empty trace — exactly the same result as an explicit
cancellation with 0. -/
theorem claim_C9_out_of_range (s : RobotState) (n : Int)
    (pick_confirm place_confirm : Nat → Bool) (safety_status : Nat → String)
    (objs : List ProcessedObject)
    (hobjs : catalogObjects s.scan_results = some objs)
    (hne : s.scan_results ≠ []) (hn : ¬n = 0)
    (hout : ∀ o ∈ objs, o.index ≠ n) :
    select_object_interactively s.scan_results (some n) = .normal none
  ∧ handle_pick_place_command s (some n) pick_confirm place_confirm
      safety_status = (s, [], .normal ())
  ∧ handle_pick_place_command s (some n) pick_confirm place_confirm
        safety_status
      = handle_pick_place_command s (some 0) pick_confirm place_confirm
          safety_status := by
  have hfind : objs.find? (fun x => x.index == n) = none := by
    rw [List.find?_eq_none]
    intro o ho
    simp [hout o ho]
  have hsel : select_object_interactively s.scan_results (some n) =
      .normal none := by
    unfold select_object_interactively
    rw [hobjs]
    show (if n = 0 then CallOutcome.normal none
          else CallOutcome.normal (objs.find? (fun x => x.index == n)))
        = CallOutcome.normal none
    rw [if_neg hn, hfind]
  have hempty : s.scan_results.isEmpty = false := by
    cases h : s.scan_results
    · exact absurd h hne
    · rfl
  have h1 : handle_pick_place_command s (some n) pick_confirm place_confirm
      safety_status = (s, [], .normal ()) := by
    unfold handle_pick_place_command
    simp only [hempty, Bool.false_eq_true, if_false]
    rw [hsel]
  have h0 : handle_pick_place_command s (some 0) pick_confirm place_confirm
      safety_status = (s, [], .normal ()) := by
    unfold handle_pick_place_command
    simp only [hempty, Bool.false_eq_true, if_false]
    unfold select_object_interactively
    rw [hobjs]
    rfl
  exact ⟨hsel, h1, h1.trans h0.symm⟩

/-- Witness for C9: selecting index 5 in a one-object catalog (whose only
index is 1) cancels exactly like selecting 0. -/
theorem claim_C9_out_of_range_witness :
    select_object_interactively [.object sampleObject] (some 5) = .normal none
  ∧ handle_pick_place_command ⟨[.object sampleObject], false⟩ (some 5)
        (fun _ => true) (fun _ => true) (fun _ => "idle")
      = (⟨[.object sampleObject], false⟩, [], .normal ())
  ∧ handle_pick_place_command ⟨[.object sampleObject], false⟩ (some 5)
        (fun _ => true) (fun _ => true) (fun _ => "idle")
      = handle_pick_place_command ⟨[.object sampleObject], false⟩ (some 0)
          (fun _ => true) (fun _ => true) (fun _ => "idle") :=
  claim_C9_out_of_range ⟨[.object sampleObject], false⟩ 5 (fun _ => true)
    (fun _ => true) (fun _ => "idle") [sampleObject] rfl (by decide)
    (by decide) (by decide)

end ArmSystem
